import Mathlib

/-!
Shallow embedding of the trend-analysis engine
(`shared/allure-config/trend-analysis.py`) and verification of its
natural-language specification.

Modelling conventions:
* Python floats and `datetime` instants are modelled as exact rationals (`ℚ`);
  timestamps are seconds since the epoch, and the `timedelta(days=d)` cutoff
  arithmetic becomes `now - d * 86400`.
* Python dicts keyed by first insertion (`defaultdict`, `Counter`) are
  modelled by `firstKeys` (keys in first-encounter order) together with
  per-key `filter`s, which reproduces CPython's insertion-ordered semantics.
* `str.lower()` is modelled as character-wise ASCII lowercasing, which agrees
  with it on the classifier's keyword alphabet.
* Fallible dictionary access (`data.get(k, default)`) is modelled by records
  of `Option`-typed fields plus `Option.getD`.
-/

/-- One test execution outcome (`TestResult` dataclass, source lines 49-60). -/
structure TestResult where
  name : String
  status : String
  duration : ℚ
  timestamp : ℚ
  build_number : String
  branch : String
  framework : String
  error_message : Option String
  category : Option String
deriving DecidableEq

/-- Aggregate statistics of one build (`BuildSummary` dataclass, source lines 63-76).
The five counts are `int` in Python and may be copied verbatim from external
history feeds, so they are modelled as `ℤ`. -/
structure BuildSummary where
  build_number : String
  timestamp : ℚ
  branch : String
  framework : String
  total_tests : ℤ
  passed_tests : ℤ
  failed_tests : ℤ
  skipped_tests : ℤ
  broken_tests : ℤ
  duration : ℚ
  pass_rate : ℚ
deriving DecidableEq

/-- Output of one windowed analysis (`TrendMetrics` dataclass, source lines 79-90).
The `failure_categories` dict is modelled as an association list in
first-encounter key order. -/
structure TrendMetrics where
  average_pass_rate : ℚ
  pass_rate_trend : String
  average_duration : ℚ
  duration_trend : String
  total_builds : ℕ
  flaky_tests : List String
  most_failed_tests : List (String × ℕ)
  failure_categories : List (String × ℕ)
  performance_regressions : List String
deriving DecidableEq

/-- Substring test on character lists: does `needle` occur contiguously in the
list scanned? (Python's `in` operator on strings.) -/
def containsSub (needle : List Char) : List Char → Bool
  | [] => needle.isEmpty
  | c :: t => needle.isPrefixOf (c :: t) || containsSub needle t

/-- `needle in hay` for strings. -/
def strContains (hay needle : String) : Bool := containsSub needle.data hay.data

/-- `str.lower()`, character-wise ASCII lowercasing. -/
def lowerString (s : String) : String := String.mk (s.data.map Char.toLower)

/-- Keyword list of the `product_defect` rule (source line 307). -/
def product_defect_keywords : List String := ["assertion", "expect", "should"]

/-- Keyword list of the `test_defect` rule (source line 311). -/
def test_defect_keywords : List String := ["typeerror", "referenceerror", "syntaxerror", "importerror"]

/-- Keyword list of the `infrastructure` rule (source line 315). -/
def infrastructure_keywords : List String := ["timeout", "connection", "network", "server"]

/-- Keyword list of the `performance` rule (source line 319). -/
def performance_keywords : List String := ["performance", "slow", "memory"]

/-- `any(keyword in text for keyword in kws)`. -/
def containsAny (text : String) (kws : List String) : Bool :=
  kws.any (fun kw => strContains text kw)

/-- The failure classifier `_categorize_test` (source lines 296-322).
Python's `if not error_message` is true both for `None` and for the empty
string, hence the extra emptiness test. -/
def categorize_test (name status : String) (error_message : Option String) : String :=
  if status = "passed" then "passed"
  else
    match error_message with
    | none => "unknown_failure"
    | some msg =>
      if msg = "" then "unknown_failure"
      else
        let error_lower := lowerString msg
        if containsAny error_lower product_defect_keywords then "product_defect"
        else if containsAny error_lower test_defect_keywords then "test_defect"
        else if containsAny error_lower infrastructure_keywords then "infrastructure"
        else if containsAny error_lower performance_keywords then "performance"
        else "other_failure"

/-- Reference classifier following the spec's words (§4.2): rules evaluated in
order, first match wins, case-insensitive substring search over the error
text; "no error text" covers both an absent and an empty message. -/
def specClassify (status : String) (error_message : Option String) : String :=
  if status = "passed" then "passed"
  else if error_message = none ∨ error_message = some "" then "unknown_failure"
  else
    let text := lowerString ((error_message.getD ""))
    if containsAny text product_defect_keywords then "product_defect"
    else if containsAny text test_defect_keywords then "test_defect"
    else if containsAny text infrastructure_keywords then "infrastructure"
    else if containsAny text performance_keywords then "performance"
    else "other_failure"

/-- Claim C2: the failure classifier is a deterministic total function equal to
the spec's reference definition (first-match-wins, case-insensitive substring
rules); a failing result whose error text contains both a product-defect
keyword and an infrastructure keyword is classified `product_defect`, and the
category is `passed` exactly when the status is `passed`. -/
theorem categorize_test_matches_spec (name status : String) (err : Option String) :
    categorize_test name status err = specClassify status err
    ∧ (categorize_test name status err = "passed" ↔ status = "passed")
    ∧ (status ≠ "passed" → ∀ msg, err = some msg →
        containsAny (lowerString msg) product_defect_keywords = true →
        containsAny (lowerString msg) infrastructure_keywords = true →
        categorize_test name status err = "product_defect") := by
  refine ⟨?_, ?_, ?_⟩
  · by_cases hp : status = "passed"
    · simp [categorize_test, specClassify, hp]
    · cases err with
      | none => simp [categorize_test, specClassify, hp]
      | some msg =>
        by_cases hm : msg = ""
        · simp [categorize_test, specClassify, hp, hm]
        · simp [categorize_test, specClassify, hp, hm]
  · by_cases hp : status = "passed"
    · simp [categorize_test, hp]
    · cases err with
      | none => simp [categorize_test, hp]
      | some msg =>
        by_cases hm : msg = ""
        · simp [categorize_test, hp, hm]
        · simp only [categorize_test, hp, if_false, hm]
          split <;> simp_all <;> split <;> simp_all <;> split <;> simp_all <;> split <;> simp_all
  · intro hp msg hmsg hprod _
    subst hmsg
    by_cases hm : msg = ""
    · subst hm
      simp [containsAny, lowerString, strContains, containsSub,
        product_defect_keywords] at hprod
    · simp [categorize_test, hp, hm, hprod]

/-- Witness for C2 at a concrete failing result whose error text contains both
an assertion keyword and an infrastructure keyword. -/
theorem categorize_test_matches_spec_witness :
    categorize_test "t" "failed" (some "Assertion failed: connection timeout")
      = "product_defect" :=
  (categorize_test_matches_spec "t" "failed"
      (some "Assertion failed: connection timeout")).2.2
    (by decide) "Assertion failed: connection timeout" rfl (by decide) (by decide)

/-- One `{name, value}` entry of a raw record's `labels` array. -/
structure RawLabel where
  name : String
  value : String
deriving DecidableEq

/-- The optional `statusDetails` object of a raw record; `message = none`
covers both an absent and a JSON-null `message` key. -/
structure StatusDetails where
  message : Option String
deriving DecidableEq

/-- One raw per-test Allure result record, with every field the parser reads;
`none` models an absent key, matching `data.get(...)` defaults.  `start` and
`stop` are epoch-millisecond numbers. -/
structure RawRecord where
  fullName : Option String
  name : Option String
  status : Option String
  start : Option ℚ
  stop : Option ℚ
  labels : List RawLabel
  statusDetails : Option StatusDetails
deriving DecidableEq

/-- Dict-comprehension lookup over the labels: later duplicate keys overwrite
earlier ones, so the last matching label wins (source line 160). -/
def lookupLabel (labels : List RawLabel) (key dflt : String) : String :=
  match (labels.filter (fun l => l.name = key)).getLast? with
  | some l => l.value
  | none => dflt

/-- The result parser `_parse_test_result` (source lines 144-186).  On a
well-typed record the Python `try/except` never fires, so the embedding is
total; `now` stands for `datetime.datetime.now()`. -/
def parse_test_result (framework_default : String) (now : ℚ) (data : RawRecord) : TestResult :=
  let nm := data.fullName.getD (data.name.getD "Unknown")
  let status := lowerString (data.status.getD "unknown")
  let start_time := data.start.getD 0
  let stop_time := data.stop.getD 0
  let duration := (stop_time - start_time) / 1000
  let timestamp := if start_time ≠ 0 then start_time / 1000 else now
  let build_number := lookupLabel data.labels "build" "unknown"
  let branch := lookupLabel data.labels "branch" "unknown"
  let framework := lookupLabel data.labels "framework" framework_default
  let error_message := match data.statusDetails with
    | some sd => sd.message
    | none => none
  let category := categorize_test nm status error_message
  { name := nm, status := status, duration := duration, timestamp := timestamp,
    build_number := build_number, branch := branch, framework := framework,
    error_message := error_message, category := some category }

/-- Keys of an insertion-ordered dict built by traversing a list: each key
appears once, at its first encounter position. -/
def firstKeys : List String → List String
  | [] => []
  | k :: t => k :: (firstKeys t).filter (fun x => x ≠ k)

/-- Stable insertion of `x` into a list ordered by `key`: `x` goes after every
element whose key is `≤ key x`. -/
def insertByKey {α : Type} (key : α → ℚ) (x : α) : List α → List α
  | [] => [x]
  | y :: ys => if key y ≤ key x then y :: insertByKey key x ys else x :: y :: ys

/-- Stable sort by a rational key, the embedding of Python's stable
`list.sort(key=...)`: equal keys keep their original relative order. -/
def sortByKey {α : Type} (key : α → ℚ) (l : List α) : List α :=
  l.foldl (fun acc x => insertByKey key x acc) []

/-- `statistics.mean`; every call site passes a nonempty list (in `ℚ` the
degenerate `[]` case evaluates to `0/0 = 0` instead of raising). -/
def rqMean (l : List ℚ) : ℚ := l.sum / l.length

/-- `max(r.timestamp for r in results)`; call sites pass nonempty groups. -/
def maxTimestamp (rs : List TestResult) : ℚ :=
  match rs.map TestResult.timestamp with
  | [] => 0
  | t :: ts => ts.foldl max t

/-- The members of one build's group: `builds[build_number]` (source lines
215-217), in original encounter order. -/
def resultsOfBuild (results : List TestResult) (b : String) : List TestResult :=
  results.filter (fun r => r.build_number = b)

/-- Reduction of one nonempty build group to a `BuildSummary` (source lines
219-252). -/
def summarizeBuild (build_number : String) (rs : List TestResult) : BuildSummary :=
  let total_tests := rs.length
  let passed_tests := (rs.filter (fun r => r.status = "passed")).length
  let failed_tests := (rs.filter (fun r => r.status = "failed")).length
  let skipped_tests := (rs.filter (fun r => r.status = "skipped")).length
  let broken_tests := (rs.filter (fun r => r.status = "broken")).length
  let total_duration := (rs.map TestResult.duration).sum
  let pass_rate : ℚ := if 0 < total_tests then (passed_tests : ℚ) / total_tests * 100 else 0
  { build_number := build_number,
    timestamp := maxTimestamp rs,
    branch := ((rs.head?).map TestResult.branch).getD "unknown",
    framework := ((rs.head?).map TestResult.framework).getD "unknown",
    total_tests := total_tests,
    passed_tests := passed_tests,
    failed_tests := failed_tests,
    skipped_tests := skipped_tests,
    broken_tests := broken_tests,
    duration := total_duration,
    pass_rate := pass_rate }

/-- The build aggregator `_load_build_summaries` (source lines 188-255):
group `results` by `build_number` in first-encounter order, append one summary
per group to the prior collection, then stable-sort the whole collection by
timestamp.  (The `executor.json`/`environment.properties` probing at lines
190-212 fills a `build_info` dict that the function never reads again, so it
has no observable effect and is omitted.) -/
def load_build_summaries (results : List TestResult) (prior : List BuildSummary) :
    List BuildSummary :=
  let keys := firstKeys (results.map TestResult.build_number)
  let fresh := keys.map (fun b => summarizeBuild b (resultsOfBuild results b))
  sortByKey BuildSummary.timestamp (prior ++ fresh)

/-- The `time` object of a history entry (epoch-ms `start`, ms `duration`). -/
structure HistoryTime where
  start : Option ℚ
  duration : Option ℚ
deriving DecidableEq

/-- The `statistic` object of a history entry; the counts come straight from
external JSON, hence `ℤ`. -/
structure HistoryStatistic where
  total : Option ℤ
  passed : Option ℤ
  failed : Option ℤ
  skipped : Option ℤ
  broken : Option ℤ
deriving DecidableEq

/-- One entry of the Allure `history.json` feed. -/
structure HistoryEntry where
  buildOrder : Option ℤ
  time : Option HistoryTime
  statistic : Option HistoryStatistic
deriving DecidableEq

/-- Conversion of one history entry to a `BuildSummary` (loop body of
`_parse_history_data`, source lines 259-291). -/
def parse_history_entry (framework : String) (now : ℚ) (e : HistoryEntry) : BuildSummary :=
  let build_number := match e.buildOrder with
    | some n => toString n
    | none => "unknown"
  let timestamp_ms := ((e.time.map HistoryTime.start).getD none).getD 0
  let timestamp := if timestamp_ms ≠ 0 then timestamp_ms / 1000 else now
  let stat := e.statistic
  let total_tests := ((stat.map HistoryStatistic.total).getD none).getD 0
  let passed_tests := ((stat.map HistoryStatistic.passed).getD none).getD 0
  let failed_tests := ((stat.map HistoryStatistic.failed).getD none).getD 0
  let skipped_tests := ((stat.map HistoryStatistic.skipped).getD none).getD 0
  let broken_tests := ((stat.map HistoryStatistic.broken).getD none).getD 0
  let duration := (((e.time.map HistoryTime.duration).getD none).getD 0) / 1000
  let pass_rate : ℚ := if 0 < total_tests then (passed_tests : ℚ) / total_tests * 100 else 0
  { build_number := build_number,
    timestamp := timestamp,
    branch := "unknown",
    framework := framework,
    total_tests := total_tests,
    passed_tests := passed_tests,
    failed_tests := failed_tests,
    skipped_tests := skipped_tests,
    broken_tests := broken_tests,
    duration := duration,
    pass_rate := pass_rate }

/-- The history importer `_parse_history_data` (source lines 257-294): each
entry's summary is appended to the existing collection, in feed order, with no
re-sorting. -/
def parse_history_data (framework : String) (now : ℚ) (entries : List HistoryEntry)
    (prior : List BuildSummary) : List BuildSummary :=
  prior ++ entries.map (parse_history_entry framework now)

/-- `datetime.datetime.now() - datetime.timedelta(days=days_back)`, in epoch
seconds. -/
def cutoff_date (now : ℚ) (days_back : ℤ) : ℚ := now - (days_back : ℚ) * 86400

/-- OLS numerator `sum((i - x_mean) * (values[i] - y_mean) for i in range(n))`
(source line 405); `zip (range n) values` models indexing `values[i]`. -/
def trendNumerator (values : List ℚ) : ℚ :=
  ((List.zip (List.range values.length) values).map
    (fun p => ((p.1 : ℚ) - ((values.length : ℚ) - 1) / 2) * (p.2 - rqMean values))).sum

/-- OLS denominator `sum((i - x_mean) ** 2 for i in range(n))` (source line 406). -/
def trendDenominator (values : List ℚ) : ℚ :=
  ((List.range values.length).map
    (fun i : ℕ => ((i : ℚ) - ((values.length : ℚ) - 1) / 2) ^ 2)).sum

/-- The ordinary-least-squares slope of value against index position. -/
def olsSlope (values : List ℚ) : ℚ := trendNumerator values / trendDenominator values

/-- Trend-direction inference `_analyze_trend` (source lines 395-424); the
local `slope` (negated when `reverse` is set, since lower duration is better)
is written out inline. -/
def analyze_trend (values : List ℚ) (reverse : Bool) : String :=
  if values.length < 3 then "unknown"
  else if trendDenominator values = 0 then "stable"
  else if (1 : ℚ) / 10 < (if reverse then
      -(trendNumerator values / trendDenominator values)
    else trendNumerator values / trendDenominator values) then "improving"
  else if (if reverse then -(trendNumerator values / trendDenominator values)
    else trendNumerator values / trendDenominator values) < -(1 / 10 : ℚ) then "declining"
  else "stable"

/-- Reference trend direction following the spec's words (§4.5): `unknown`
below 3 points, otherwise classify the OLS slope of value against index with
the ±0.1 thresholds, negating the slope first when the series is one where
lower values are better (duration). -/
def specTrendDirection (values : List ℚ) (invert : Bool) : String :=
  if values.length < 3 then "unknown"
  else
    let slope := if invert then -olsSlope values else olsSlope values
    if (1 : ℚ) / 10 < slope then "improving"
    else if slope < -(1 / 10 : ℚ) then "declining"
    else "stable"

/-- Results inside the lookback window: `r.timestamp >= cutoff_date`. -/
def recentResults (results : List TestResult) (cutoff : ℚ) : List TestResult :=
  results.filter (fun r => cutoff ≤ r.timestamp)

/-- The status list one test name contributes, in encounter order
(`test_results[result.name].append(result.status)`, source lines 432-434). -/
def statusesOf (results : List TestResult) (nm : String) : List String :=
  (results.filter (fun r => r.name = nm)).map TestResult.status

/-- `min(Counter(statuses).values())` (source line 441): the smallest
per-status multiplicity. -/
def minorityCount (statuses : List String) : ℕ :=
  match (firstKeys statuses).map (fun s => statuses.count s) with
  | [] => 0
  | c :: cs => cs.foldl min c

/-- The flakiness test applied to one test's status list (source lines
437-446): more than one distinct status, at least 3 runs, and minority-status
fraction at least 0.2. -/
def isFlakyStatuses (statuses : List String) : Bool :=
  decide (1 < (firstKeys statuses).length) && decide (3 ≤ statuses.length) &&
    decide ((1 : ℚ) / 5 ≤ (minorityCount statuses : ℚ) / statuses.length)

/-- Flaky-test identification `_identify_flaky_tests` (source lines 426-448):
group windowed results by name in first-encounter order, keep names passing
the flakiness test, return the first 10. -/
def identify_flaky_tests (results : List TestResult) (now : ℚ) (days_back : ℤ) :
    List String :=
  let recent := recentResults results (cutoff_date now days_back)
  let names := firstKeys (recent.map TestResult.name)
  (names.filter (fun nm => isFlakyStatuses (statusesOf recent nm))).take 10

/-- Stable descending insertion by count, modelling the sort inside
`Counter.most_common`: ties keep first-encounter order. -/
def insertByCount (x : String × ℕ) : List (String × ℕ) → List (String × ℕ)
  | [] => [x]
  | y :: ys => if x.2 ≤ y.2 then y :: insertByCount x ys else x :: y :: ys

/-- Most-failed-tests identification `_identify_most_failed_tests` (source
lines 450-456): count failed results per name, `most_common(10)`. -/
def identify_most_failed_tests (results : List TestResult) (now : ℚ) (days_back : ℤ) :
    List (String × ℕ) :=
  let recent := results.filter
    (fun r => cutoff_date now days_back ≤ r.timestamp ∧ r.status = "failed")
  let names := recent.map TestResult.name
  let counts := (firstKeys names).map (fun nm => (nm, names.count nm))
  (counts.foldl (fun acc x => insertByCount x acc) []).take 10

/-- Failure-category histogram `_analyze_failure_categories` (source lines
458-464): count failed windowed results per category; Python's
`if result.category` skips both `None` and the empty string. -/
def analyze_failure_categories (results : List TestResult) (now : ℚ) (days_back : ℤ) :
    List (String × ℕ) :=
  let recent := results.filter
    (fun r => cutoff_date now days_back ≤ r.timestamp ∧ r.status = "failed")
  let cats := (recent.filterMap TestResult.category).filter (fun c => c ≠ "")
  (firstKeys cats).map (fun c => (c, cats.count c))

/-- The (timestamp, duration) pairs one test name contributes within the
window, in encounter order (source lines 472-474). -/
def durationDataOf (recent : List TestResult) (nm : String) : List (ℚ × ℚ) :=
  (recent.filter (fun r => r.name = nm)).map (fun r => (r.timestamp, r.duration))

/-- The regression test applied to one test's (timestamp, duration) data
(source lines 477-492): at least 5 points, sort chronologically, split at the
midpoint, flag when the recent-half mean exceeds 1.5x the early-half mean and
exceeds 1 second. -/
def hasPerfRegression (dd : List (ℚ × ℚ)) : Bool :=
  if dd.length < 5 then false
  else
    let durations := (sortByKey Prod.fst dd).map Prod.snd
    let mid := durations.length / 2
    let early_avg := rqMean (durations.take mid)
    let recent_avg := rqMean (durations.drop mid)
    decide (early_avg * (3 / 2) < recent_avg) && decide ((1 : ℚ) < recent_avg)

/-- Performance-regression identification `_identify_performance_regressions`
(source lines 466-494): group windowed results by name in first-encounter
order, keep names passing the regression test, return the first 10. -/
def identify_performance_regressions (results : List TestResult) (now : ℚ)
    (days_back : ℤ) : List String :=
  let recent := recentResults results (cutoff_date now days_back)
  let names := firstKeys (recent.map TestResult.name)
  (names.filter (fun nm => hasPerfRegression (durationDataOf recent nm))).take 10

/-- The zeroed metrics returned when no build data is in scope (source lines
330-340 and 348-358). -/
def zeroMetrics : TrendMetrics :=
  { average_pass_rate := 0, pass_rate_trend := "unknown",
    average_duration := 0, duration_trend := "unknown",
    total_builds := 0, flaky_tests := [], most_failed_tests := [],
    failure_categories := [], performance_regressions := [] }

/-- The trend engine `analyze_trends` (source lines 324-393), as a pure
function of the accumulated summaries and results, the clock, and the window. -/
def analyze_trends (summaries : List BuildSummary) (results : List TestResult)
    (now : ℚ) (days_back : ℤ) : TrendMetrics :=
  if summaries.isEmpty then zeroMetrics
  else
    let recent := summaries.filter (fun b => cutoff_date now days_back ≤ b.timestamp)
    if recent.isEmpty then zeroMetrics
    else
      let pass_rates := recent.map BuildSummary.pass_rate
      let durations := recent.map BuildSummary.duration
      { average_pass_rate := if pass_rates.isEmpty then 0 else rqMean pass_rates,
        pass_rate_trend := analyze_trend pass_rates false,
        average_duration := if durations.isEmpty then 0 else rqMean durations,
        duration_trend := analyze_trend durations true,
        total_builds := recent.length,
        flaky_tests := identify_flaky_tests results now days_back,
        most_failed_tests := identify_most_failed_tests results now days_back,
        failure_categories := analyze_failure_categories results now days_back,
        performance_regressions := identify_performance_regressions results now days_back }

lemma mem_firstKeys {l : List String} {x : String} : x ∈ firstKeys l ↔ x ∈ l := by
  induction l with
  | nil => simp [firstKeys]
  | cons k t ih =>
    simp only [firstKeys, List.mem_cons, List.mem_filter, decide_eq_true_eq]
    constructor
    · rintro (rfl | ⟨hx, _⟩)
      · exact Or.inl rfl
      · exact Or.inr (ih.mp hx)
    · rintro (rfl | hx)
      · exact Or.inl rfl
      · by_cases hxk : x = k
        · exact Or.inl hxk
        · exact Or.inr ⟨ih.mpr hx, hxk⟩

lemma length_partition (rs : List TestResult) :
    rs.length = (rs.filter (fun r => r.status = "passed")).length
      + (rs.filter (fun r => r.status = "failed")).length
      + (rs.filter (fun r => r.status = "skipped")).length
      + (rs.filter (fun r => r.status = "broken")).length
      + (rs.filter (fun r => r.status ≠ "passed" ∧ r.status ≠ "failed"
          ∧ r.status ≠ "skipped" ∧ r.status ≠ "broken")).length := by
  induction rs with
  | nil => rfl
  | cons r t ih =>
    by_cases h1 : r.status = "passed" <;> by_cases h2 : r.status = "failed" <;>
      by_cases h3 : r.status = "skipped" <;> by_cases h4 : r.status = "broken" <;>
      simp_all [List.filter_cons] <;> omega

lemma sum_map_pos {l : List ℕ} {f : ℕ → ℚ} (h0 : ∀ x ∈ l, 0 ≤ f x) {y : ℕ}
    (hy : y ∈ l) (hpos : 0 < f y) : 0 < (l.map f).sum := by
  induction l with
  | nil => cases hy
  | cons a t ih =>
    rw [List.map_cons, List.sum_cons]
    rcases List.mem_cons.mp hy with rfl | hyt
    · have ht : 0 ≤ (t.map f).sum := by
        refine List.sum_nonneg ?_
        intro x hx
        obtain ⟨i, hi, rfl⟩ := List.mem_map.mp hx
        exact h0 i (List.mem_cons_of_mem _ hi)
      linarith
    · have ha : 0 ≤ f a := h0 a (List.mem_cons_self a t)
      have := ih (fun x hx => h0 x (List.mem_cons_of_mem _ hx)) hyt
      linarith

lemma trendDenominator_pos {values : List ℚ} (h : 2 ≤ values.length) :
    0 < trendDenominator values := by
  have hmean : (0 : ℚ) < ((values.length : ℚ) - 1) / 2 := by
    have h2 : (2 : ℚ) ≤ (values.length : ℚ) := by exact_mod_cast h
    linarith
  unfold trendDenominator
  refine sum_map_pos (fun x _ => sq_nonneg _)
    (show (0 : ℕ) ∈ List.range values.length from List.mem_range.mpr (by omega)) ?_
  have hz : ((0 : ℕ) : ℚ) - ((values.length : ℚ) - 1) / 2
      = -(((values.length : ℚ) - 1) / 2) := by
    push_cast
    ring
  rw [hz, neg_sq]
  positivity

lemma perm_insertByKey {α : Type} (key : α → ℚ) (x : α) (l : List α) :
    List.Perm (insertByKey key x l) (x :: l) := by
  induction l with
  | nil => exact List.Perm.refl _
  | cons y ys ih =>
    by_cases hle : key y ≤ key x
    · simp only [insertByKey, if_pos hle]
      exact (List.Perm.cons y ih).trans (List.Perm.swap x y ys)
    · simp only [insertByKey, if_neg hle]
      exact List.Perm.refl _

lemma sorted_insertByKey {α : Type} (key : α → ℚ) (x : α) (l : List α)
    (h : List.Sorted (· ≤ ·) (l.map key)) :
    List.Sorted (· ≤ ·) ((insertByKey key x l).map key) := by
  induction l with
  | nil => simp [insertByKey]
  | cons y ys ih =>
    rw [List.map_cons, List.sorted_cons] at h
    obtain ⟨hy, hys⟩ := h
    by_cases hle : key y ≤ key x
    · simp only [insertByKey, if_pos hle, List.map_cons, List.sorted_cons]
      refine ⟨?_, ih hys⟩
      intro b hb
      have hmem : b ∈ (x :: ys).map key :=
        (((perm_insertByKey key x ys).map key).mem_iff).mp hb
      rw [List.map_cons, List.mem_cons] at hmem
      rcases hmem with rfl | hmem
      · exact hle
      · exact hy b hmem
    · push_neg at hle
      simp only [insertByKey, if_neg (not_le.mpr hle), List.map_cons, List.sorted_cons]
      refine ⟨?_, hy, hys⟩
      intro b hb
      rcases List.mem_cons.mp hb with rfl | hmem
      · exact le_of_lt hle
      · exact le_trans (le_of_lt hle) (hy b hmem)

lemma sorted_sortByKey {α : Type} (key : α → ℚ) (l : List α) :
    List.Sorted (· ≤ ·) ((sortByKey key l).map key) := by
  have aux : ∀ (t acc : List α), List.Sorted (· ≤ ·) (acc.map key) →
      List.Sorted (· ≤ ·) ((t.foldl (fun a x => insertByKey key x a) acc).map key) := by
    intro t
    induction t with
    | nil => intro acc h; exact h
    | cons x ts ih => intro acc h; exact ih _ (sorted_insertByKey key x acc h)
  exact aux l [] (by simp)

lemma perm_sortByKey {α : Type} (key : α → ℚ) (l : List α) :
    List.Perm (sortByKey key l) l := by
  have aux : ∀ (t acc : List α),
      List.Perm (t.foldl (fun a x => insertByKey key x a) acc) (acc ++ t) := by
    intro t
    induction t with
    | nil => intro acc; simp
    | cons x ts ih =>
      intro acc
      refine (ih (insertByKey key x acc)).trans ?_
      refine (((perm_insertByKey key x acc).append_right ts).trans ?_)
      exact List.perm_middle.symm
  simpa using aux l []

lemma length_sortByKey {α : Type} (key : α → ℚ) (l : List α) :
    (sortByKey key l).length = l.length :=
  (perm_sortByKey key l).length_eq

lemma trendNumerator_three (a b c : ℚ) : trendNumerator [a, b, c] = c - a := by
  have hr : List.range ([a, b, c] : List ℚ).length = [0, 1, 2] := rfl
  simp only [trendNumerator, hr, rqMean]
  norm_num [List.zip]

lemma trendDenominator_three (a b c : ℚ) : trendDenominator [a, b, c] = 2 := by
  have hr : List.range ([a, b, c] : List ℚ).length = [0, 1, 2] := rfl
  simp only [trendDenominator, hr]
  norm_num

lemma sum_map_affine (a b : ℚ) (l : List ℚ) :
    (l.map (fun v => a * v + b)).sum = a * l.sum + l.length * b := by
  induction l with
  | nil => simp
  | cons x t ih =>
    simp only [List.map_cons, List.sum_cons, List.length_cons, ih]
    push_cast
    ring

lemma rqMean_map_affine (a b : ℚ) (l : List ℚ) (h : l ≠ []) :
    rqMean (l.map (fun v => a * v + b)) = a * rqMean l + b := by
  have hn : (l.length : ℚ) ≠ 0 :=
    Nat.cast_ne_zero.mpr (by have := List.length_pos.mpr h; omega)
  rw [rqMean, rqMean, List.length_map, sum_map_affine]
  field_simp
  ring

lemma trendDenominator_map (g : ℚ → ℚ) (values : List ℚ) :
    trendDenominator (values.map g) = trendDenominator values := by
  simp only [trendDenominator, List.length_map]

lemma trendNumerator_map_affine (a b : ℚ) (values : List ℚ) :
    trendNumerator (values.map (fun v => a * v + b)) = a * trendNumerator values := by
  rcases eq_or_ne values [] with rfl | hne
  · simp [trendNumerator]
  · simp only [trendNumerator, List.length_map, rqMean_map_affine a b values hne]
    rw [List.zip_map_right, List.map_map]
    have hfun : ((fun p : ℕ × ℚ =>
          ((p.1 : ℚ) - ((values.length : ℚ) - 1) / 2) * (p.2 - (a * rqMean values + b)))
          ∘ Prod.map id (fun v => a * v + b))
        = fun p : ℕ × ℚ =>
          a * (((p.1 : ℚ) - ((values.length : ℚ) - 1) / 2) * (p.2 - rqMean values)) := by
      funext p
      simp only [Function.comp_apply, Prod.map, id]
      ring
    rw [hfun, List.sum_map_mul_left]

lemma olsSlope_map_affine (a b : ℚ) (values : List ℚ) :
    olsSlope (values.map (fun v => a * v + b)) = a * olsSlope values := by
  simp only [olsSlope, trendNumerator_map_affine, trendDenominator_map, mul_div_assoc]

/-- Claim C4: trend-direction inference returns `unknown` below 3 points and,
from 3 points on, classifies the ordinary-least-squares slope of value against
index position with the ±0.1 thresholds, negating the slope first for the
duration series (`reverse`), so a rising duration series yields `declining`. -/
theorem analyze_trend_matches_spec (values : List ℚ) (reverse : Bool) :
    analyze_trend values reverse = specTrendDirection values reverse
    ∧ (values.length < 3 → analyze_trend values reverse = "unknown")
    ∧ analyze_trend [1, 2, 3] true = "declining" := by
  refine ⟨?_, ?_, ?_⟩
  · by_cases h3 : values.length < 3
    · simp [analyze_trend, specTrendDirection, h3]
    · have hd : 0 < trendDenominator values := trendDenominator_pos (by omega)
      simp only [analyze_trend, specTrendDirection, if_neg h3, olsSlope]
      rw [if_neg hd.ne']
  · intro h3
    simp [analyze_trend, h3]
  · have hn : trendNumerator [1, 2, 3] = 2 := by
      rw [trendNumerator_three]
      norm_num
    simp only [analyze_trend, hn, trendDenominator_three]
    norm_num

/-- Witness for C4 at a concrete too-short series. -/
theorem analyze_trend_matches_spec_witness : analyze_trend [5] false = "unknown" :=
  (analyze_trend_matches_spec [5] false).2.1 (by decide)

/-- Claim C10: for every series of at least 2 points the OLS regression
denominator is strictly positive, so the slope division is well-defined and
the `denominator == 0` fallback branch is unreachable; the inference is a
total function into the four direction labels. -/
theorem analyze_trend_denominator_safe (values : List ℚ) (reverse : Bool)
    (h : 2 ≤ values.length) :
    0 < trendDenominator values
    ∧ trendDenominator values ≠ 0
    ∧ analyze_trend values reverse ∈ ["unknown", "improving", "declining", "stable"] := by
  have hd := trendDenominator_pos h
  refine ⟨hd, hd.ne', ?_⟩
  unfold analyze_trend
  split_ifs <;> simp

/-- Witness for C10 at a concrete 2-point series. -/
theorem analyze_trend_denominator_safe_witness :
    0 < trendDenominator [1, 2]
    ∧ trendDenominator [1, 2] ≠ 0
    ∧ analyze_trend [1, 2] false ∈ ["unknown", "improving", "declining", "stable"] :=
  analyze_trend_denominator_safe [1, 2] false (by decide)

/-- Claim C9 (amended): trend direction is invariant under translating every
value by the same constant; under a general positive affine transform
`v ↦ a*v + b` only the OLS slope scales by `a` (so its sign is preserved),
but the comparison against the absolute ±0.1 thresholds is not preserved. -/
theorem analyze_trend_affine (values : List ℚ) (b : ℚ) (reverse : Bool) (a : ℚ) :
    analyze_trend (values.map (fun v => v + b)) reverse = analyze_trend values reverse
    ∧ olsSlope (values.map (fun v => a * v + b)) = a * olsSlope values := by
  constructor
  · have h1 : values.map (fun v => v + b) = values.map (fun v => 1 * v + b) := by
      simp
    rw [h1]
    unfold analyze_trend
    rw [List.length_map, trendNumerator_map_affine 1 b values,
      trendDenominator_map (fun v => 1 * v + b) values, one_mul]
  · exact olsSlope_map_affine a b values

/-- Counterexample to claim C9: the series `[0, 0.05, 0.1]` has OLS slope
0.05 and is classified `stable`, but its image under the order-preserving
positive affine transform `v ↦ 10*v` has slope 0.5 and is classified
`improving`, so the direction is not invariant under positive scaling. -/
theorem analyze_trend_scale_counterexample :
    analyze_trend [0, 1/20, 1/10] false = "stable"
    ∧ ([0, 1/20, 1/10] : List ℚ).map (fun v => 10 * v + 0) = [0, 1/2, 1]
    ∧ analyze_trend [0, 1/2, 1] false = "improving" := by
  refine ⟨?_, ?_, ?_⟩
  · have hn : trendNumerator [0, 1/20, 1/10] = 1/10 := by
      rw [trendNumerator_three]
      norm_num
    simp only [analyze_trend, hn, trendDenominator_three]
    norm_num
  · norm_num
  · have hn : trendNumerator [0, 1/2, 1] = 1 := by
      rw [trendNumerator_three]
      norm_num
    simp only [analyze_trend, hn, trendDenominator_three]
    norm_num

/-- Claim C3: for every window, `analyze_trends` on an empty summary
collection, or on one with no summary at or after the cutoff, returns the
zeroed metrics — zero builds and averages, both trends `unknown`, and all four
detail collections empty — rather than raising. -/
theorem analyze_trends_no_recent (summaries : List BuildSummary)
    (results : List TestResult) (now : ℚ) (days_back : ℤ)
    (h : summaries.filter (fun b => cutoff_date now days_back ≤ b.timestamp) = []) :
    analyze_trends summaries results now days_back =
      { average_pass_rate := 0, pass_rate_trend := "unknown",
        average_duration := 0, duration_trend := "unknown",
        total_builds := 0, flaky_tests := [], most_failed_tests := [],
        failure_categories := [], performance_regressions := [] } := by
  unfold analyze_trends
  by_cases hs : summaries.isEmpty
  · simp [hs, zeroMetrics]
  · simp [hs, h, zeroMetrics]

/-- Witness for C3: a nonempty collection whose single summary is older than
the 30-day cutoff yields the zeroed metrics. -/
theorem analyze_trends_no_recent_witness :
    analyze_trends
      [{ build_number := "b0", timestamp := 0, branch := "main", framework := "jest",
         total_tests := 1, passed_tests := 1, failed_tests := 0, skipped_tests := 0,
         broken_tests := 0, duration := 2, pass_rate := 100 }] [] 2592010 30 =
      { average_pass_rate := 0, pass_rate_trend := "unknown",
        average_duration := 0, duration_trend := "unknown",
        total_builds := 0, flaky_tests := [], most_failed_tests := [],
        failure_categories := [], performance_regressions := [] } :=
  analyze_trends_no_recent _ [] 2592010 30 (by norm_num [cutoff_date, List.filter])

/-- Claim C7 (amended): for every accepted raw record the produced duration is
exactly `(stop - start) / 1000` — converted from milliseconds to seconds but
NOT clamped — so a record with `stop < start` is accepted yet yields a
strictly negative duration. -/
theorem parse_test_result_duration (fw : String) (now : ℚ) (data : RawRecord) :
    (parse_test_result fw now data).duration
      = (data.stop.getD 0 - data.start.getD 0) / 1000
    ∧ ((parse_test_result fw now data).duration < 0
        ↔ data.stop.getD 0 < data.start.getD 0) := by
  constructor
  · rfl
  · have hd : (parse_test_result fw now data).duration
        = (data.stop.getD 0 - data.start.getD 0) / 1000 := rfl
    rw [hd, div_lt_iff (by norm_num : (0 : ℚ) < 1000)]
    constructor
    · intro hlt
      nlinarith
    · intro hlt
      nlinarith

/-- Counterexample to claim C7: the record with `start = 2000`, `stop = 1000`
is accepted and parses to duration `-1`, a negative value, so no clamping to
`0` happens. -/
theorem parse_test_result_negative_duration :
    (parse_test_result "auto" 0
      { fullName := some "t_skew", name := none, status := some "failed",
        start := some 2000, stop := some 1000, labels := [],
        statusDetails := none }).duration = -1
    ∧ ¬ (0 ≤ (parse_test_result "auto" 0
      { fullName := some "t_skew", name := none, status := some "failed",
        start := some 2000, stop := some 1000, labels := [],
        statusDetails := none }).duration) := by
  constructor
  · show ((1000 : ℚ) - 2000) / 1000 = -1
    norm_num
  · show ¬ (0 ≤ ((1000 : ℚ) - 2000) / 1000)
    norm_num

/-- A result whose status is outside the four counted buckets, as produced for
a record with no `status` key. -/
def otherStatusResult : TestResult :=
  { name := "t1", status := "unknown", duration := 0, timestamp := 0,
    build_number := "b1", branch := "main", framework := "jest",
    error_message := none, category := some "unknown_failure" }

/-- A history entry whose statistic object violates `total = p+f+s+b`. -/
def inconsistentHistoryEntry : HistoryEntry :=
  { buildOrder := some 7, time := none,
    statistic := some { total := some 5, passed := some 0, failed := some 0,
                        skipped := some 0, broken := some 0 } }

/-- Counterexample to claim C1: aggregating the single result with status
`unknown` yields a `BuildSummary` with `total = 1` but
`passed+failed+skipped+broken = 0`, and importing a history entry whose
`statistic` says `total = 5` with all four counts `0` copies those counts
verbatim, so `total = passed+failed+skipped+broken` does not hold for all
inputs on either path. -/
theorem build_summary_total_counterexample :
    (load_build_summaries [otherStatusResult] []).map BuildSummary.total_tests = [1]
    ∧ (load_build_summaries [otherStatusResult] []).map
        (fun s => s.passed_tests + s.failed_tests + s.skipped_tests + s.broken_tests) = [0]
    ∧ (parse_history_data "auto" 0 [inconsistentHistoryEntry] []).map
        BuildSummary.total_tests = [5]
    ∧ (parse_history_data "auto" 0 [inconsistentHistoryEntry] []).map
        (fun s => s.passed_tests + s.failed_tests + s.skipped_tests + s.broken_tests) = [0]
    ∧ (1 : ℤ) ≠ 0 ∧ (5 : ℤ) ≠ 0 := by
  refine ⟨rfl, rfl, rfl, rfl, by decide, by decide⟩

/-- Claim C1 (amended): every `BuildSummary` the Build Aggregator reduces from
a group of results has non-negative counts with `total` equal to the number
of results in the group, which equals `passed+failed+skipped+broken` plus the
number of results whose status lies outside those four buckets (so the
claimed identity holds exactly when no other status occurs); a `BuildSummary`
produced by the History Importer copies its five counts verbatim from the
entry's `statistic` object, so the identity holds there only if the input
feed satisfies it. -/
theorem build_summary_counts (b : String) (rs : List TestResult) (fw : String)
    (now : ℚ) (e : HistoryEntry) :
    (summarizeBuild b rs).total_tests = rs.length
    ∧ (summarizeBuild b rs).total_tests
        = (summarizeBuild b rs).passed_tests + (summarizeBuild b rs).failed_tests
          + (summarizeBuild b rs).skipped_tests + (summarizeBuild b rs).broken_tests
          + ((rs.filter (fun r => r.status ≠ "passed" ∧ r.status ≠ "failed"
              ∧ r.status ≠ "skipped" ∧ r.status ≠ "broken")).length : ℤ)
    ∧ 0 ≤ (summarizeBuild b rs).total_tests
    ∧ 0 ≤ (summarizeBuild b rs).passed_tests
    ∧ 0 ≤ (summarizeBuild b rs).failed_tests
    ∧ 0 ≤ (summarizeBuild b rs).skipped_tests
    ∧ 0 ≤ (summarizeBuild b rs).broken_tests
    ∧ (parse_history_entry fw now e).total_tests
        = ((e.statistic.map HistoryStatistic.total).getD none).getD 0
    ∧ (parse_history_entry fw now e).passed_tests
        = ((e.statistic.map HistoryStatistic.passed).getD none).getD 0
    ∧ (parse_history_entry fw now e).failed_tests
        = ((e.statistic.map HistoryStatistic.failed).getD none).getD 0
    ∧ (parse_history_entry fw now e).skipped_tests
        = ((e.statistic.map HistoryStatistic.skipped).getD none).getD 0
    ∧ (parse_history_entry fw now e).broken_tests
        = ((e.statistic.map HistoryStatistic.broken).getD none).getD 0 := by
  have hparts := length_partition rs
  refine ⟨rfl, ?_, ?_, ?_, ?_, ?_, ?_, rfl, rfl, rfl, rfl, rfl⟩
  · show (rs.length : ℤ) = ((rs.filter (fun r => r.status = "passed")).length : ℤ)
      + ((rs.filter (fun r => r.status = "failed")).length : ℤ)
      + ((rs.filter (fun r => r.status = "skipped")).length : ℤ)
      + ((rs.filter (fun r => r.status = "broken")).length : ℤ)
      + ((rs.filter (fun r => r.status ≠ "passed" ∧ r.status ≠ "failed"
          ∧ r.status ≠ "skipped" ∧ r.status ≠ "broken")).length : ℤ)
    exact_mod_cast hparts
  · exact Int.natCast_nonneg _
  · exact Int.natCast_nonneg _
  · exact Int.natCast_nonneg _
  · exact Int.natCast_nonneg _
  · exact Int.natCast_nonneg _

/-- A passing result whose build timestamp is 10 epoch-seconds. -/
def lateResult : TestResult :=
  { name := "t1", status := "passed", duration := 1, timestamp := 10,
    build_number := "b1", branch := "main", framework := "jest",
    error_message := none, category := some "passed" }

/-- A history entry dated 5 epoch-seconds (5000 ms), earlier than
`lateResult`. -/
def earlyHistoryEntry : HistoryEntry :=
  { buildOrder := some 1,
    time := some { start := some 5000, duration := some 1000 },
    statistic := some { total := some 1, passed := some 1, failed := some 0,
                        skipped := some 0, broken := some 0 } }

/-- Counterexample to claim C8: aggregating one result at timestamp 10 and
then importing one history entry at timestamp 5 — the interleaving
`load_results` then `load_history` that the program's main path performs —
leaves the working collection with timestamps `[10, 5]`, which is not sorted
ascending when trend computation would run on it. -/
theorem build_summaries_unsorted_counterexample :
    (parse_history_data "auto" 0 [earlyHistoryEntry]
        (load_build_summaries [lateResult] [])).map BuildSummary.timestamp = [10, 5]
    ∧ ¬ List.Sorted (· ≤ ·)
        ((parse_history_data "auto" 0 [earlyHistoryEntry]
          (load_build_summaries [lateResult] [])).map BuildSummary.timestamp) := by
  have hts : (parse_history_data "auto" 0 [earlyHistoryEntry]
      (load_build_summaries [lateResult] [])).map BuildSummary.timestamp
      = [10, 5000 / 1000] := rfl
  have h5 : (5000 / 1000 : ℚ) = 5 := by norm_num
  rw [hts, h5]
  refine ⟨rfl, ?_⟩
  rw [List.sorted_cons]
  push_neg
  intro hforall
  exfalso
  have := hforall 5 (by simp)
  norm_num at this

/-- Claim C8 (amended): the Build Aggregator leaves the collection sorted
ascending by timestamp after every `load_build_summaries` call, for any prior
contents; the History Importer, however, only appends its summaries in feed
order without re-sorting, so the sortedness invariant holds at trend time
only when no history import follows the last aggregation. -/
theorem build_summaries_sorted_amended (results : List TestResult)
    (prior : List BuildSummary) (fw : String) (now : ℚ)
    (entries : List HistoryEntry) :
    List.Sorted (· ≤ ·)
      ((load_build_summaries results prior).map BuildSummary.timestamp)
    ∧ parse_history_data fw now entries prior
        = prior ++ entries.map (parse_history_entry fw now) :=
  ⟨sorted_sortByKey BuildSummary.timestamp _, rfl⟩

/-- The names that pass the flakiness test within the window, in
first-encounter order, before the cap of 10. -/
def flakyQualified (results : List TestResult) (now : ℚ) (days_back : ℤ) : List String :=
  (firstKeys ((recentResults results (cutoff_date now days_back)).map TestResult.name)).filter
    (fun nm => isFlakyStatuses (statusesOf (recentResults results (cutoff_date now days_back)) nm))

lemma isFlakyStatuses_iff (statuses : List String) :
    isFlakyStatuses statuses = true ↔
      (3 ≤ statuses.length ∧ 1 < (firstKeys statuses).length
       ∧ (1 : ℚ) / 5 ≤ (minorityCount statuses : ℚ) / statuses.length) := by
  simp only [isFlakyStatuses, Bool.and_eq_true, decide_eq_true_eq]
  tauto

/-- Claim C5: within the window a test name qualifies as flaky exactly when it
has at least 3 results, more than one distinct status, and a minority-status
fraction of at least 0.2 (boundary inclusive: 1 disagreement in 5 runs is
flagged, 1 in 6 is not); the reported list is the qualifying names capped at
10 in first-encounter order, not ranked by severity. -/
theorem identify_flaky_tests_spec (results : List TestResult) (now : ℚ)
    (days_back : ℤ) :
    identify_flaky_tests results now days_back
      = (flakyQualified results now days_back).take 10
    ∧ (∀ nm, nm ∈ flakyQualified results now days_back ↔
        ((∃ r ∈ recentResults results (cutoff_date now days_back), r.name = nm)
         ∧ 3 ≤ (statusesOf (recentResults results (cutoff_date now days_back)) nm).length
         ∧ 1 < (firstKeys (statusesOf (recentResults results (cutoff_date now days_back)) nm)).length
         ∧ (1 : ℚ) / 5 ≤ (minorityCount (statusesOf (recentResults results (cutoff_date now days_back)) nm) : ℚ)
             / (statusesOf (recentResults results (cutoff_date now days_back)) nm).length))
    ∧ isFlakyStatuses ["passed", "failed", "passed", "passed", "passed"] = true
    ∧ isFlakyStatuses ["passed", "passed", "passed", "passed", "passed", "failed"] = false := by
  refine ⟨rfl, ?_, ?_, ?_⟩
  · intro nm
    rw [flakyQualified, List.mem_filter, mem_firstKeys, List.mem_map,
      isFlakyStatuses_iff]
  · rw [isFlakyStatuses_iff,
      (by decide : minorityCount ["passed", "failed", "passed", "passed", "passed"] = 1)]
    refine ⟨by decide, by decide, ?_⟩
    norm_num
  · rw [Bool.eq_false_iff, Ne, isFlakyStatuses_iff,
      (by decide : minorityCount ["passed", "passed", "passed", "passed", "passed", "failed"] = 1)]
    rintro ⟨-, -, hratio⟩
    norm_num at hratio

/-- The names that pass the performance-regression test within the window, in
first-encounter order, before the cap of 10. -/
def perfQualified (results : List TestResult) (now : ℚ) (days_back : ℤ) : List String :=
  (firstKeys ((recentResults results (cutoff_date now days_back)).map TestResult.name)).filter
    (fun nm => hasPerfRegression (durationDataOf (recentResults results (cutoff_date now days_back)) nm))

lemma hasPerfRegression_iff (dd : List (ℚ × ℚ)) :
    hasPerfRegression dd = true ↔
      (5 ≤ dd.length
       ∧ rqMean (((sortByKey Prod.fst dd).map Prod.snd).take (dd.length / 2)) * (3 / 2)
           < rqMean (((sortByKey Prod.fst dd).map Prod.snd).drop (dd.length / 2))
       ∧ 1 < rqMean (((sortByKey Prod.fst dd).map Prod.snd).drop (dd.length / 2))) := by
  have hlen : ((sortByKey Prod.fst dd).map Prod.snd).length = dd.length := by
    rw [List.length_map, length_sortByKey]
  simp only [hasPerfRegression, hlen]
  by_cases h5 : dd.length < 5
  · simp only [if_pos h5]
    constructor
    · intro hfalse
      cases hfalse
    · rintro ⟨hc, -⟩
      omega
  · simp only [if_neg h5, Bool.and_eq_true, decide_eq_true_eq]
    constructor
    · rintro ⟨h1, h2⟩
      exact ⟨by omega, h1, h2⟩
    · rintro ⟨-, h1, h2⟩
      exact ⟨h1, h2⟩

/-- The spec's non-flagged example series: 6 points, early-half mean 0.5s,
recent-half mean 0.9s. -/
def perfExampleBelowFloor : List (ℚ × ℚ) :=
  [(1, 1/2), (2, 1/2), (3, 1/2), (4, 9/10), (5, 9/10), (6, 9/10)]

/-- The spec's flagged example series: 6 points, early-half mean 1.0s,
recent-half mean 1.8s. -/
def perfExampleFlagged : List (ℚ × ℚ) :=
  [(1, 1), (2, 1), (3, 1), (4, 9/5), (5, 9/5), (6, 9/5)]

/-- Claim C6: within the window a test name is flagged as a performance
regression exactly when it has at least 5 (timestamp, duration) points and,
after sorting chronologically and splitting at the midpoint, the recent-half
mean duration exceeds 1.5 times the early-half mean and exceeds 1 second; a
6-point series with early mean 0.5s and recent mean 0.9s is not flagged while
early 1.0s / recent 1.8s is; output is the qualifying names capped at 10 in
encounter order. -/
theorem identify_performance_regressions_spec (results : List TestResult)
    (now : ℚ) (days_back : ℤ) :
    identify_performance_regressions results now days_back
      = (perfQualified results now days_back).take 10
    ∧ (∀ nm, nm ∈ perfQualified results now days_back ↔
        ((∃ r ∈ recentResults results (cutoff_date now days_back), r.name = nm)
         ∧ hasPerfRegression
            (durationDataOf (recentResults results (cutoff_date now days_back)) nm) = true))
    ∧ (∀ dd : List (ℚ × ℚ), hasPerfRegression dd = true ↔
        (5 ≤ dd.length
         ∧ rqMean (((sortByKey Prod.fst dd).map Prod.snd).take (dd.length / 2)) * (3 / 2)
             < rqMean (((sortByKey Prod.fst dd).map Prod.snd).drop (dd.length / 2))
         ∧ 1 < rqMean (((sortByKey Prod.fst dd).map Prod.snd).drop (dd.length / 2))))
    ∧ hasPerfRegression perfExampleBelowFloor = false
    ∧ hasPerfRegression perfExampleFlagged = true := by
  refine ⟨rfl, ?_, hasPerfRegression_iff, ?_, ?_⟩
  · intro nm
    rw [perfQualified, List.mem_filter, mem_firstKeys, List.mem_map]
  · have hsort : sortByKey Prod.fst perfExampleBelowFloor = perfExampleBelowFloor := by
      norm_num [perfExampleBelowFloor, sortByKey, insertByKey]
    rw [Bool.eq_false_iff, Ne, hasPerfRegression_iff, hsort]
    rintro ⟨-, -, hgt⟩
    norm_num [perfExampleBelowFloor, rqMean] at hgt
  · have hsort : sortByKey Prod.fst perfExampleFlagged = perfExampleFlagged := by
      norm_num [perfExampleFlagged, sortByKey, insertByKey]
    rw [hasPerfRegression_iff, hsort]
    refine ⟨by norm_num [perfExampleFlagged], ?_, ?_⟩
    · norm_num [perfExampleFlagged, rqMean]
    · norm_num [perfExampleFlagged, rqMean]
